import Mathlib

/-!
# dockerbox: the applet record and its invocation compiler

Shallow embedding of `src/repo/applet.go`.

* Go strings are Lean `String`s, Go slices are `List String`.
* The process context the Go code reads through the standard library
  (`os.Environ`, `os.ExpandEnv`, `terminal.IsTerminal` on stdin,
  `regexp.MatchString`) is made explicit as a `Host` value passed to the
  functions that read it.
* A Go `error` is an `Option String` (`none` is `nil`).
-/

namespace Dockerbox

/-- The constant `dockerExe` of the source. -/
def dockerExe : String := "docker"

/-- The struct `Applet` of the source; every field defaults to its Go zero value. -/
structure Applet where
  Name : String := ""
  WorkDir : String := ""
  Entrypoint : String := ""
  Restart : String := ""
  Network : String := ""
  EnvFilter : String := ""
  RM : Bool := false
  TTY : Bool := false
  Interactive : Bool := false
  Privileged : Bool := false
  Detach : Bool := false
  Kill : Bool := false
  AllEnvs : Bool := false
  Env : List String := []
  Volumes : List String := []
  Ports : List String := []
  EnvFile : List String := []
  Dependencies : List String := []
  Links : List String := []
  Image : String := ""
  Tag : String := ""
  Command : List String := []
deriving DecidableEq, Repr

/-- The process context read by the source through library calls.
`Environ` is `os.Environ()`, `ExpandEnv` is `os.ExpandEnv`, `IsTerminal` is
`terminal.IsTerminal(int(os.Stdin.Fd()))`, and `MatchString pattern s` is
`regexp.MatchString(pattern, s)` with its two results `(matched, err)`. -/
structure Host where
  Environ : List String
  ExpandEnv : String → String
  IsTerminal : Bool
  MatchString : String → String → Bool × Option String

/-- The call `exec.Command(name, arg...)`: the program name and the argument
vector handed to it. -/
structure Cmd where
  name : String
  arg : List String
deriving DecidableEq, Repr

/-- The function `exec.Command` of the Go library, recorded by its arguments. -/
def exec.Command (name : String) (arg : List String) : Cmd := { name := name, arg := arg }

/-- The function `isTTY` of the source. -/
def isTTY (h : Host) : Bool := h.IsTerminal

/-- The method `Applet.KillCmd` of the source. -/
def Applet.KillCmd (a : Applet) : Cmd :=
  let args := ["kill", a.Name]
  exec.Command dockerExe args

/-- The method `Applet.RunCmd` of the source: `args` is threaded through the
same sequence of conditional appends and loops. -/
def Applet.RunCmd (a : Applet) (h : Host) (extra : List String) : Cmd :=
  let args := ["run"]
  let args := if a.Name ≠ "" then args ++ ["--name", a.Name] else args
  let args := if a.WorkDir ≠ "" then args ++ ["--workdir", h.ExpandEnv a.WorkDir] else args
  let args := if a.Entrypoint ≠ "" then args ++ ["--entrypoint", a.Entrypoint] else args
  let args := if a.Restart ≠ "" then args ++ ["--restart", a.Restart] else args
  let args := if a.Network ≠ "" then args ++ ["--network", a.Network] else args
  let args := if a.RM then args ++ ["--rm"] else args
  let args := if a.Interactive then args ++ ["--interactive"] else args
  let args := if a.Privileged then args ++ ["--privileged"] else args
  let args := if a.Detach then args ++ ["--detach"] else args
  let args := if isTTY h && a.TTY then args ++ ["--tty"] else args
  let args :=
    if a.AllEnvs then
      h.Environ.foldl
        (fun args f => if (h.MatchString a.EnvFilter f).1 then args ++ ["-e", f] else args) args
    else args
  let args := a.Env.foldl (fun args f => args ++ ["-e", h.ExpandEnv f]) args
  let args := a.Volumes.foldl (fun args f => args ++ ["-v", h.ExpandEnv f]) args
  let args := a.Ports.foldl (fun args f => args ++ ["-p", f]) args
  let args := a.EnvFile.foldl (fun args f => args ++ ["--env-file", f]) args
  let args := a.Links.foldl (fun args f => args ++ ["--link", f]) args
  let args := args ++ [a.Image ++ ":" ++ a.Tag]
  let args :=
    if a.Command.length ≠ 0 && extra.length == 0 then args ++ a.Command else args ++ extra
  exec.Command dockerExe args

/-- The method `Applet.UnmarshalYAML` of the source. The callback `unmarshal`
receives the pre-populated `raw` record and returns the record as the decoder
left it together with the decoder's error; the result is the new value of the
receiver and the returned error. -/
def Applet.UnmarshalYAML (a : Applet) (unmarshal : Applet → Applet × Option String) :
    Applet × Option String :=
  let raw : Applet := { RM := true, Interactive := true, TTY := true, Tag := "latest" }
  match unmarshal raw with
  | (_, some err) => (a, some err)
  | (raw, none) => (raw, none)

/-- The three stream fields of `exec.Cmd` that the source assigns before
`Run`: a field is `true` when it holds the parent's stream of the same name
(`os.Stdin`, `os.Stdout`, `os.Stderr`) and `false` when it is left nil. -/
structure Stdio where
  Stdin : Bool := false
  Stdout : Bool := false
  Stderr : Bool := false
deriving DecidableEq, Repr

/-- What a method of the source writes itself on the parent's standard
streams (the child's own output is not part of it). -/
structure Written where
  stdout : String := ""
  stderr : String := ""
deriving DecidableEq, Repr

/-- The method `Applet.Exec` of the source. `run cmd stdio` is the outcome of
`cmd.Run()` for the command `cmd` with the stream fields `stdio`: `none` when
the child ran and exited with status zero, `some cause` with the text of the
error otherwise. -/
def Applet.Exec (a : Applet) (h : Host) (run : Cmd → Stdio → Option String)
    (extra : List String) : Option String :=
  let cmd := a.RunCmd h extra
  let err := run cmd { Stdout := true, Stderr := true, Stdin := true }
  match err with
  | some err => some ("error runnng applet " ++ a.Name ++ ": " ++ err)
  | none => none

/-- The method `Applet.PreExec` of the source. It returns nothing; the result
here is what it writes: `fmt.Printf` writes on the standard output. -/
def Applet.PreExec (a : Applet) (run : Cmd → Stdio → Option String) : Written :=
  let cmd := a.KillCmd
  let err := run cmd { Stdout := true, Stderr := true }
  match err with
  | some err => { stdout := "error killing " ++ a.Name ++ ": " ++ err }
  | none => { }

/-! ## The source configuration and its decoding -/

/-- A source configuration: for each YAML key of the record, either absent
(`none`) or present with a value of the field's type. -/
structure Config where
  name : Option String := none
  work_dir : Option String := none
  entrypoint : Option String := none
  restart : Option String := none
  network : Option String := none
  env_filter : Option String := none
  rm : Option Bool := none
  tty : Option Bool := none
  interactive : Option Bool := none
  privileged : Option Bool := none
  detach : Option Bool := none
  kill : Option Bool := none
  all_envs : Option Bool := none
  environment : Option (List String) := none
  volumes : Option (List String) := none
  ports : Option (List String) := none
  env_file : Option (List String) := none
  dependencies : Option (List String) := none
  links : Option (List String) := none
  image : Option String := none
  image_tag : Option String := none
  command : Option (List String) := none
deriving DecidableEq, Repr

/-- The decoding callback the YAML library hands to `UnmarshalYAML`, for a
well-formed configuration: decoding into a struct writes the field of every
key that is present (through the `yaml:"..."` tags of `Applet`) and leaves
the field of an absent key as it found it; it reports no error. -/
def Config.unmarshal (c : Config) (raw : Applet) : Applet × Option String :=
  ({ Name := c.name.getD raw.Name
     WorkDir := c.work_dir.getD raw.WorkDir
     Entrypoint := c.entrypoint.getD raw.Entrypoint
     Restart := c.restart.getD raw.Restart
     Network := c.network.getD raw.Network
     EnvFilter := c.env_filter.getD raw.EnvFilter
     RM := c.rm.getD raw.RM
     TTY := c.tty.getD raw.TTY
     Interactive := c.interactive.getD raw.Interactive
     Privileged := c.privileged.getD raw.Privileged
     Detach := c.detach.getD raw.Detach
     Kill := c.kill.getD raw.Kill
     AllEnvs := c.all_envs.getD raw.AllEnvs
     Env := c.environment.getD raw.Env
     Volumes := c.volumes.getD raw.Volumes
     Ports := c.ports.getD raw.Ports
     EnvFile := c.env_file.getD raw.EnvFile
     Dependencies := c.dependencies.getD raw.Dependencies
     Links := c.links.getD raw.Links
     Image := c.image.getD raw.Image
     Tag := c.image_tag.getD raw.Tag
     Command := c.command.getD raw.Command }, none)

/-! ## The run invocation as the specification words it (§4.2)

These definitions follow the numbered list of §4.2 of the specification, not
the code; the theorems below compare `Applet.RunCmd` with them. -/

/-- A valued option: `[flag, value]` when the tested field is non-empty. -/
def optValue (flag field value : String) : List String :=
  if field ≠ "" then [flag, value] else []

/-- A boolean option: `[flag]` when the condition holds. -/
def optFlag (flag : String) (b : Bool) : List String :=
  if b then [flag] else []

/-- One `[flag, x]` pair per entry, in the entries' order. -/
def optEach (flag : String) (xs : List String) : List String :=
  xs.flatMap (fun x => [flag, x])

/-- Item 12: the host entries the filter matched, each behind `-e`, when
`AllEnvs` is set. -/
def hostForwarded (a : Applet) (h : Host) : List String :=
  if a.AllEnvs then optEach "-e" (h.Environ.filter (fun f => (h.MatchString a.EnvFilter f).1))
  else []

/-- Items 1 to 17: everything in front of the image reference. -/
def runOptions (a : Applet) (h : Host) : List String :=
  ["run"]
    ++ optValue "--name" a.Name a.Name
    ++ optValue "--workdir" a.WorkDir (h.ExpandEnv a.WorkDir)
    ++ optValue "--entrypoint" a.Entrypoint a.Entrypoint
    ++ optValue "--restart" a.Restart a.Restart
    ++ optValue "--network" a.Network a.Network
    ++ optFlag "--rm" a.RM
    ++ optFlag "--interactive" a.Interactive
    ++ optFlag "--privileged" a.Privileged
    ++ optFlag "--detach" a.Detach
    ++ optFlag "--tty" (a.TTY && h.IsTerminal)
    ++ hostForwarded a h
    ++ optEach "-e" (a.Env.map h.ExpandEnv)
    ++ optEach "-v" (a.Volumes.map h.ExpandEnv)
    ++ optEach "-p" a.Ports
    ++ optEach "--env-file" a.EnvFile
    ++ optEach "--link" a.Links

/-- Items 1 to 11: `run`, the valued options and the boolean flags. -/
def headOptions (a : Applet) (h : Host) : List String :=
  ["run"]
    ++ optValue "--name" a.Name a.Name
    ++ optValue "--workdir" a.WorkDir (h.ExpandEnv a.WorkDir)
    ++ optValue "--entrypoint" a.Entrypoint a.Entrypoint
    ++ optValue "--restart" a.Restart a.Restart
    ++ optValue "--network" a.Network a.Network
    ++ optFlag "--rm" a.RM
    ++ optFlag "--interactive" a.Interactive
    ++ optFlag "--privileged" a.Privileged
    ++ optFlag "--detach" a.Detach
    ++ optFlag "--tty" (a.TTY && h.IsTerminal)

/-- Items 15 to 17: the entries of Ports, EnvFile and Links behind their flags. -/
def verbatimOptions (a : Applet) : List String :=
  optEach "-p" a.Ports ++ optEach "--env-file" a.EnvFile ++ optEach "--link" a.Links

/-- Item 19: the trailing command. -/
def trailingCommand (a : Applet) (extra : List String) : List String :=
  if extra ≠ [] then extra else if a.Command ≠ [] then a.Command else []

/-- The values that `RunCmd` copies into the vector as argument values (as
opposed to the flag names and the image reference it writes itself): the
non-empty Name, Entrypoint, Restart and Network, the expansion of a non-empty
WorkDir, the forwarded host entries, the expansions of the Env and Volumes
entries, the Ports, EnvFile and Links entries, and the trailing command. -/
def copiedValues (a : Applet) (h : Host) (extra : List String) : List String :=
  (if a.Name ≠ "" then [a.Name] else [])
    ++ (if a.WorkDir ≠ "" then [h.ExpandEnv a.WorkDir] else [])
    ++ (if a.Entrypoint ≠ "" then [a.Entrypoint] else [])
    ++ (if a.Restart ≠ "" then [a.Restart] else [])
    ++ (if a.Network ≠ "" then [a.Network] else [])
    ++ (if a.AllEnvs then h.Environ.filter (fun f => (h.MatchString a.EnvFilter f).1) else [])
    ++ a.Env.map h.ExpandEnv ++ a.Volumes.map h.ExpandEnv
    ++ a.Ports ++ a.EnvFile ++ a.Links
    ++ trailingCommand a extra

/-! ## Sample values used to instantiate the theorems -/

/-- A host with two environment entries, a terminal on stdin, an expansion
that knows `$HOME`, and a matcher that accepts the entry `HOME=/root` only. -/
def sampleHost : Host where
  Environ := ["HOME=/root", "TERM=xterm"]
  ExpandEnv := fun s => if s = "$HOME" then "/root" else s
  IsTerminal := true
  MatchString := fun _ s => (decide (s = "HOME=/root"), none)

/-- The applet of the end-to-end scenario of §8. -/
def webApplet : Applet :=
  { Name := "web", Image := "nginx", Tag := "1.25", Ports := ["8080:80"], RM := true,
    Interactive := false, TTY := false }

/-- An applet with TTY set, one Env entry to expand and a default command. -/
def jobApplet : Applet :=
  { Name := "job", Image := "alpine", Tag := "latest", TTY := true, Env := ["$HOME"],
    Command := ["ls"] }

/-- A host without a terminal whose matcher agrees with `regexp.MatchString`
on the two patterns used below: the pattern `(` does not compile (no match,
an error), and the empty pattern matches every string. On any other pattern
it accepts the entries equal to the pattern. -/
def strictHost : Host where
  Environ := ["HOME=/root", "TERM=xterm"]
  ExpandEnv := fun s => if s = "$HOME" then "/root" else s
  IsTerminal := false
  MatchString := fun pattern s =>
    if pattern = "(" then (false, some "error parsing regexp: missing closing )")
    else if pattern = "" then (true, none)
    else (decide (s = pattern), none)

/-- Whether the characters `p` occur in a row somewhere in the given string. -/
def occursIn (p : List Char) : List Char → Bool
  | [] => p.isPrefixOf []
  | c :: cs => p.isPrefixOf (c :: cs) || occursIn p cs

/-- A host without a terminal whose matcher is `regexp.MatchString` for
patterns made of literal characters only (letters, digits, `=`, `/`): such a
pattern always compiles, and it matches when it occurs somewhere in the
subject, since the library searches the subject for a match and does not
anchor the pattern at its ends. -/
def literalHost : Host where
  Environ := ["HOME=/root", "XHOME=/rootY", "TERM=xterm"]
  ExpandEnv := fun s => s
  IsTerminal := false
  MatchString := fun pattern s => (occursIn pattern.data s.data, none)

/-- An applet that forwards the host entries selected by the filter `HOME`. -/
def homeFilterApplet : Applet :=
  { AllEnvs := true, EnvFilter := "HOME", Image := "alpine", Tag := "latest" }

/-- An applet that forwards host entries through a filter that does not compile. -/
def brokenFilterApplet : Applet :=
  { AllEnvs := true, EnvFilter := "(", Image := "alpine", Tag := "latest" }

/-- A child process that exits with status 1 whatever the command. -/
def failingRun : Cmd → Stdio → Option String := fun _ _ => some "exit status 1"

/-- A decoder that writes one field and then reports an error. -/
def failingUnmarshal : Applet → Applet × Option String :=
  fun raw => ({ raw with Name := "half" }, some "yaml: unmarshal errors")

/-! ## Auxiliary facts about the loops of `RunCmd` -/

theorem foldl_append_pair (flag : String) (g : String → String) (xs init : List String) :
    xs.foldl (fun args f => args ++ [flag, g f]) init = init ++ optEach flag (xs.map g) := by
  induction xs generalizing init with
  | nil => simp [optEach]
  | cons x xs ih => simp [ih, optEach]

theorem foldl_append_pair_id (flag : String) (xs init : List String) :
    xs.foldl (fun args f => args ++ [flag, f]) init = init ++ optEach flag xs := by
  simpa using foldl_append_pair flag id xs init

theorem foldl_append_matched (p : String → Bool) (xs init : List String) :
    xs.foldl (fun args f => if p f then args ++ ["-e", f] else args) init
      = init ++ optEach "-e" (xs.filter p) := by
  induction xs generalizing init with
  | nil => simp [optEach]
  | cons x xs ih =>
    by_cases hp : p x
    · simp [ih, hp, optEach]
    · simp [ih, hp]

theorem trailing_eq (a : Applet) (extra : List String) :
    (if (a.Command.length ≠ 0 && extra.length == 0) = true then a.Command else extra)
      = trailingCommand a extra := by
  unfold trailingCommand
  cases hc : a.Command <;> cases he : extra <;> simp

theorem ite_append_eq (c : Prop) [Decidable c] (args l : List String) :
    (if c then args ++ l else args) = args ++ (if c then l else []) := by
  split <;> simp

/-- The argument vector of `RunCmd` as one concatenation. -/
theorem RunCmd_arg_eq (a : Applet) (h : Host) (extra : List String) :
    (a.RunCmd h extra).arg
      = runOptions a h ++ (a.Image ++ ":" ++ a.Tag) :: trailingCommand a extra := by
  have ht := trailing_eq a extra
  have hand : (isTTY h && a.TTY) = (a.TTY && h.IsTerminal) := by
    simp [isTTY, Bool.and_comm]
  simp only [Applet.RunCmd, exec.Command, foldl_append_pair, foldl_append_pair_id,
    foldl_append_matched, hand]
  rw [← ht]
  unfold runOptions hostForwarded optValue optFlag
  simp only [ite_append_eq]
  split <;> simp only [List.append_assoc, List.cons_append, List.nil_append, List.map_id']

theorem RunCmd_eq_Command (a : Applet) (h : Host) (extra : List String) :
    a.RunCmd h extra = exec.Command dockerExe (a.RunCmd h extra).arg := rfl

theorem runOptions_Command (a : Applet) (h : Host) (cmd : List String) :
    runOptions { a with Command := cmd } h = runOptions a h := rfl

/-! ## The claims -/

/-- C1: for every applet, host and extra-argument list, the argument vector
built by `RunCmd` is the concatenation, in this order, of `run`, the valued
options `--name`, `--workdir` (expanded), `--entrypoint`, `--restart`,
`--network` for the non-empty fields, the flags `--rm`, `--interactive`,
`--privileged`, `--detach`, then `--tty` when TTY is set and a terminal is
attached, the forwarded host entries when AllEnvs is set, one `-e` per Env
entry (expanded), one `-v` per Volumes entry (expanded), one `-p` per Ports
entry, one `--env-file` per EnvFile entry, one `--link` per Links entry, the
image reference `Image:Tag`, and the trailing command. -/
theorem RunCmd_argument_vector (a : Applet) (h : Host) (extra : List String) :
    a.RunCmd h extra = exec.Command dockerExe
      (["run"]
        ++ (if a.Name ≠ "" then ["--name", a.Name] else [])
        ++ (if a.WorkDir ≠ "" then ["--workdir", h.ExpandEnv a.WorkDir] else [])
        ++ (if a.Entrypoint ≠ "" then ["--entrypoint", a.Entrypoint] else [])
        ++ (if a.Restart ≠ "" then ["--restart", a.Restart] else [])
        ++ (if a.Network ≠ "" then ["--network", a.Network] else [])
        ++ (if a.RM = true then ["--rm"] else [])
        ++ (if a.Interactive = true then ["--interactive"] else [])
        ++ (if a.Privileged = true then ["--privileged"] else [])
        ++ (if a.Detach = true then ["--detach"] else [])
        ++ (if a.TTY = true ∧ h.IsTerminal = true then ["--tty"] else [])
        ++ (if a.AllEnvs = true then
              (h.Environ.filter (fun f => (h.MatchString a.EnvFilter f).1)).flatMap
                (fun f => ["-e", f])
            else [])
        ++ a.Env.flatMap (fun e => ["-e", h.ExpandEnv e])
        ++ a.Volumes.flatMap (fun v => ["-v", h.ExpandEnv v])
        ++ a.Ports.flatMap (fun p => ["-p", p])
        ++ a.EnvFile.flatMap (fun f => ["--env-file", f])
        ++ a.Links.flatMap (fun l => ["--link", l])
        ++ [a.Image ++ ":" ++ a.Tag]
        ++ (if extra ≠ [] then extra else a.Command)) := by
  rw [RunCmd_eq_Command, RunCmd_arg_eq]
  refine congrArg (exec.Command dockerExe) ?_
  have htr : trailingCommand a extra = if extra ≠ [] then extra else a.Command := by
    unfold trailingCommand
    split
    · rfl
    · split
      · rfl
      · rename_i hc
        exact (not_not.mp hc).symm
  rw [htr]
  simp only [runOptions, hostForwarded, optValue, optFlag, optEach, List.flatMap_map,
    Bool.and_eq_true, List.append_assoc, List.cons_append, List.nil_append]

/-- C2: for every applet, whatever its fields and also when Name is empty,
`KillCmd` hands the runtime exactly the two arguments `kill` and Name; for
Name `worker1` they are `kill`, `worker1`. -/
theorem KillCmd_argument_vector (a : Applet) :
    a.KillCmd = exec.Command dockerExe ["kill", a.Name]
      ∧ a.KillCmd.arg = ["kill", a.Name]
      ∧ ({ a with Name := "" } : Applet).KillCmd.arg = ["kill", ""]
      ∧ ({ a with Name := "worker1" } : Applet).KillCmd.arg = ["kill", "worker1"] :=
  ⟨rfl, rfl, rfl, rfl⟩

/-- C3: the applet web / nginx:1.25 / port 8080:80 with RM set and
Interactive and TTY cleared, compiled with no extra arguments, gives exactly
`run --name web --rm -p 8080:80 nginx:1.25`, for every host. -/
theorem RunCmd_web_scenario (h : Host) :
    ({ Name := "web", Image := "nginx", Tag := "1.25", Ports := ["8080:80"], RM := true,
       Interactive := false, TTY := false } : Applet).RunCmd h []
      = exec.Command dockerExe ["run", "--name", "web", "--rm", "-p", "8080:80", "nginx:1.25"] := by
  rw [RunCmd_eq_Command, RunCmd_arg_eq]
  refine congrArg (exec.Command dockerExe) ?_
  have hi : ("nginx" : String) ++ ":" ++ "1.25" = "nginx:1.25" := by decide
  simp [runOptions, hostForwarded, optValue, optFlag, optEach, trailingCommand, hi]

/-- C4: with a non-empty extra-argument list, what follows the image reference
in the `RunCmd` vector is the extra list itself, and Command is not read: the
record with any other Command compiles to the same invocation. -/
theorem RunCmd_extra_overrides_Command (a : Applet) (h : Host) (extra : List String)
    (hne : extra ≠ []) :
    (a.RunCmd h extra).arg = runOptions a h ++ [a.Image ++ ":" ++ a.Tag] ++ extra
      ∧ (a.RunCmd h extra).arg.drop ((runOptions a h).length + 1) = extra
      ∧ ∀ cmd : List String, ({ a with Command := cmd } : Applet).RunCmd h extra = a.RunCmd h extra := by
  have key : ∀ b : Applet, (b.RunCmd h extra).arg
      = runOptions b h ++ [b.Image ++ ":" ++ b.Tag] ++ extra := by
    intro b
    rw [RunCmd_arg_eq]
    simp [trailingCommand, hne]
  refine ⟨key a, ?_, ?_⟩
  · rw [key a, List.append_assoc, List.drop_append_eq_append_drop]
    simp
  · intro cmd
    rw [RunCmd_eq_Command, key, RunCmd_eq_Command a, key a, runOptions_Command]

/-- Instance of C4: the web applet with a default command, overridden by one
extra argument. -/
theorem RunCmd_extra_overrides_Command_witness :
    (["sh"] : List String) ≠ []
      ∧ (({ webApplet with Command := ["nginx", "-g"] } : Applet).RunCmd sampleHost ["sh"]).arg
          = runOptions { webApplet with Command := ["nginx", "-g"] } sampleHost
              ++ [({ webApplet with Command := ["nginx", "-g"] } : Applet).Image ++ ":"
                    ++ ({ webApplet with Command := ["nginx", "-g"] } : Applet).Tag]
              ++ ["sh"] :=
  ⟨by decide,
    (RunCmd_extra_overrides_Command { webApplet with Command := ["nginx", "-g"] } sampleHost
      ["sh"] (by decide)).1⟩

/-- C5: with no extra arguments, what follows the image reference in the
`RunCmd` vector is Command itself, in order; when Command is empty nothing
follows and the image reference is the last element. -/
theorem RunCmd_no_extra_uses_Command (a : Applet) (h : Host) :
    (a.RunCmd h []).arg = runOptions a h ++ [a.Image ++ ":" ++ a.Tag] ++ a.Command
      ∧ (a.RunCmd h []).arg.drop ((runOptions a h).length + 1) = a.Command
      ∧ (({ a with Command := [] } : Applet).RunCmd h []).arg
          = runOptions a h ++ [a.Image ++ ":" ++ a.Tag]
      ∧ (({ a with Command := [] } : Applet).RunCmd h []).arg.getLast?
          = some (a.Image ++ ":" ++ a.Tag) := by
  have key : ∀ b : Applet, (b.RunCmd h []).arg
      = runOptions b h ++ [b.Image ++ ":" ++ b.Tag] ++ b.Command := by
    intro b
    rw [RunCmd_arg_eq]
    by_cases hc : b.Command = [] <;> simp [trailingCommand, hc]
  refine ⟨key a, ?_, ?_, ?_⟩
  · rw [key a, List.append_assoc, List.drop_append_eq_append_drop]
    simp
  · rw [key, runOptions_Command]
    simp
  · rw [key, runOptions_Command]
    simp

/-- C6: for every applet, host and extra list, the `RunCmd` vector holds the
image reference as the single argument `Image ++ ":" ++ Tag`, right after the
options and right before the trailing command; it is `:` when Image and Tag
are both empty and `:latest` when Image is empty and Tag is `latest`. `RunCmd`
is total, so no Image or Tag is rejected. -/
theorem RunCmd_image_reference (a : Applet) (h : Host) (extra : List String) :
    (a.RunCmd h extra).arg
        = runOptions a h ++ [a.Image ++ ":" ++ a.Tag] ++ trailingCommand a extra
      ∧ (a.RunCmd h extra).arg.get? (runOptions a h).length = some (a.Image ++ ":" ++ a.Tag)
      ∧ (({ a with Image := "", Tag := "" } : Applet).RunCmd h extra).arg
          = runOptions a h ++ [":"] ++ trailingCommand a extra
      ∧ (({ a with Image := "", Tag := "latest" } : Applet).RunCmd h extra).arg
          = runOptions a h ++ [":latest"] ++ trailingCommand a extra := by
  have key : ∀ b : Applet, (b.RunCmd h extra).arg
      = runOptions b h ++ [b.Image ++ ":" ++ b.Tag] ++ trailingCommand b extra := by
    intro b
    rw [RunCmd_arg_eq]
    simp
  refine ⟨key a, ?_, ?_, ?_⟩
  · rw [key a, List.append_assoc, List.get?_eq_getElem?,
      List.getElem?_append_right (le_refl _)]
    simp
  · rw [key]
    rfl
  · rw [key]
    rfl

theorem mem_optValue_iff {x flag field value : String} :
    x ∈ optValue flag field value ↔ field ≠ "" ∧ (x = flag ∨ x = value) := by
  unfold optValue
  split <;> simp [*]

theorem mem_optFlag_iff {x flag : String} {b : Bool} :
    x ∈ optFlag flag b ↔ b = true ∧ x = flag := by
  unfold optFlag
  split <;> simp [*]

theorem mem_optEach_iff {x flag : String} {xs : List String} :
    x ∈ optEach flag xs ↔ (x = flag ∧ xs ≠ []) ∨ x ∈ xs := by
  unfold optEach
  rw [List.mem_flatMap]
  constructor
  · rintro ⟨y, hy, hxy⟩
    simp at hxy
    rcases hxy with rfl | rfl
    · exact Or.inl ⟨rfl, List.ne_nil_of_mem hy⟩
    · exact Or.inr hy
  · rintro (⟨rfl, hne⟩ | hx)
    · obtain ⟨y, hy⟩ := List.exists_mem_of_ne_nil xs hne
      exact ⟨y, hy, by simp⟩
    · exact ⟨x, hx, by simp⟩

theorem mem_ite_singleton {x v : String} {c : Prop} [Decidable c] :
    x ∈ (if c then [v] else []) ↔ c ∧ x = v := by
  split <;> simp [*]

theorem mem_hostForwarded_iff {x : String} {a : Applet} {h : Host} :
    x ∈ hostForwarded a h
      ↔ (x = "-e" ∧ hostForwarded a h ≠ [])
        ∨ x ∈ (if a.AllEnvs then h.Environ.filter (fun f => (h.MatchString a.EnvFilter f).1)
                else []) := by
  unfold hostForwarded
  split
  · rw [mem_optEach_iff]
    have hne : optEach "-e" (List.filter (fun f => (h.MatchString a.EnvFilter f).1) h.Environ)
        ≠ [] ↔ List.filter (fun f => (h.MatchString a.EnvFilter f).1) h.Environ ≠ [] := by
      cases List.filter (fun f => (h.MatchString a.EnvFilter f).1) h.Environ <;>
        simp [optEach]
    rw [hne]
  · simp

theorem imageRef_ne_tty (i t : String) : i ++ ":" ++ t ≠ "--tty" := by
  intro heq
  have hd := congrArg String.data heq
  simp only [String.data_append] at hd
  have hm : ':' ∈ i.data ++ [':'] ++ t.data := by simp
  rw [hd] at hm
  revert hm
  decide

/-- C7 as stated fails: an applet with TTY set, compiled with no terminal
attached and the extra argument `--tty`, yields a vector that contains
`--tty` (the extra arguments are copied verbatim). -/
theorem RunCmd_tty_from_extra :
    ({ Image := "alpine", Tag := "latest", TTY := true } : Applet).TTY = true
      ∧ ({ sampleHost with IsTerminal := false } : Host).IsTerminal = false
      ∧ (({ Image := "alpine", Tag := "latest", TTY := true } : Applet).RunCmd
            { sampleHost with IsTerminal := false } ["--tty"]).arg
          = ["run", "alpine:latest", "--tty"]
      ∧ "--tty" ∈ (({ Image := "alpine", Tag := "latest", TTY := true } : Applet).RunCmd
            { sampleHost with IsTerminal := false } ["--tty"]).arg := by
  decide

/-- With no terminal attached, `--tty` is in the vector exactly when it is one
of the copied values. -/
theorem tty_mem_arg_iff (a : Applet) (h : Host) (extra : List String)
    (hterm : h.IsTerminal = false) :
    "--tty" ∈ (a.RunCmd h extra).arg ↔ "--tty" ∈ copiedValues a h extra := by
  have himg : ¬ ("--tty" = a.Image ++ ":" ++ a.Tag) := fun e => imageRef_ne_tty _ _ e.symm
  have e0 : ¬ ("--tty" : String) = "run" := by decide
  have e1 : ¬ ("--tty" : String) = "--name" := by decide
  have e2 : ¬ ("--tty" : String) = "--workdir" := by decide
  have e3 : ¬ ("--tty" : String) = "--entrypoint" := by decide
  have e4 : ¬ ("--tty" : String) = "--restart" := by decide
  have e5 : ¬ ("--tty" : String) = "--network" := by decide
  have e6 : ¬ ("--tty" : String) = "--rm" := by decide
  have e7 : ¬ ("--tty" : String) = "--interactive" := by decide
  have e8 : ¬ ("--tty" : String) = "--privileged" := by decide
  have e9 : ¬ ("--tty" : String) = "--detach" := by decide
  have e10 : ¬ ("--tty" : String) = "-e" := by decide
  have e11 : ¬ ("--tty" : String) = "-v" := by decide
  have e12 : ¬ ("--tty" : String) = "-p" := by decide
  have e13 : ¬ ("--tty" : String) = "--env-file" := by decide
  have e14 : ¬ ("--tty" : String) = "--link" := by decide
  rw [RunCmd_arg_eq]
  simp only [runOptions, copiedValues, List.mem_append, List.mem_cons,
    mem_optValue_iff, mem_optFlag_iff, mem_optEach_iff, mem_hostForwarded_iff,
    mem_ite_singleton, hterm, Bool.and_false, List.not_mem_nil,
    e0, e1, e2, e3, e4, e5, e6, e7, e8, e9, e10, e11, e12, e13, e14, himg,
    false_and, and_false, false_or, or_false, Bool.false_eq_true]

/-- C7, amended: for an applet with TTY set, compiled with no terminal
attached, `RunCmd` writes no `--tty` flag of its own: the invocation is the
one of the same record with TTY cleared, and the vector has an element
`--tty` exactly when one of the values copied into it (a non-empty Name,
Entrypoint, Restart or Network, the expansion of a non-empty WorkDir, a
forwarded host entry, the expansion of an Env or Volumes entry, a Ports,
EnvFile or Links entry, an element of the trailing command) is itself
`--tty`. -/
theorem RunCmd_no_tty_flag_without_terminal (a : Applet) (h : Host) (extra : List String)
    (hT : a.TTY = true) (hterm : h.IsTerminal = false) :
    a.RunCmd h extra = ({ a with TTY := false } : Applet).RunCmd h extra
      ∧ ("--tty" ∈ (a.RunCmd h extra).arg ↔ "--tty" ∈ copiedValues a h extra) := by
  constructor
  · rw [RunCmd_eq_Command, RunCmd_arg_eq, RunCmd_eq_Command { a with TTY := false },
      RunCmd_arg_eq]
    simp [runOptions, hostForwarded, trailingCommand, hterm, hT, optFlag]
  · exact tty_mem_arg_iff a h extra hterm

/-- Instance of the amended C7: an applet with TTY set, on the sample host
with stdin redirected, compiled with the extra argument `--tty`. -/
theorem RunCmd_no_tty_flag_without_terminal_witness :
    (jobApplet.TTY = true
      ∧ ({ sampleHost with IsTerminal := false } : Host).IsTerminal = false)
    ∧ (jobApplet.RunCmd { sampleHost with IsTerminal := false } ["--tty"]
          = ({ jobApplet with TTY := false } : Applet).RunCmd
              { sampleHost with IsTerminal := false } ["--tty"]
        ∧ ("--tty" ∈ (jobApplet.RunCmd { sampleHost with IsTerminal := false } ["--tty"]).arg
            ↔ "--tty" ∈ copiedValues jobApplet { sampleHost with IsTerminal := false }
                ["--tty"])) :=
  ⟨by decide,
    RunCmd_no_tty_flag_without_terminal jobApplet { sampleHost with IsTerminal := false }
      ["--tty"] (by decide) (by decide)⟩

theorem mem_RunCmd_arg_of_mem_runOptions {x : String} {a : Applet} {h : Host}
    {extra : List String} (hx : x ∈ runOptions a h) : x ∈ (a.RunCmd h extra).arg := by
  rw [RunCmd_arg_eq]
  exact List.mem_append_left _ hx

/-- C8: when the configuration leaves out rm, interactive, tty and image_tag,
`UnmarshalYAML` succeeds with an applet that has RM, Interactive and TTY set
and Tag `latest`; the vector `RunCmd` compiles from it contains `--rm` and
`--interactive`, contains `--tty` on a host with a terminal attached, and its
image reference is Image followed by `:latest`. -/
theorem UnmarshalYAML_defaults_compile (a0 : Applet) (c : Config) (h : Host)
    (extra : List String) (hrm : c.rm = none) (hint : c.interactive = none)
    (htty : c.tty = none) (htag : c.image_tag = none) :
    ∃ a : Applet, a0.UnmarshalYAML c.unmarshal = (a, none)
      ∧ a.RM = true ∧ a.Interactive = true ∧ a.TTY = true ∧ a.Tag = "latest"
      ∧ "--rm" ∈ (a.RunCmd h extra).arg
      ∧ "--interactive" ∈ (a.RunCmd h extra).arg
      ∧ "--tty" ∈ (a.RunCmd { h with IsTerminal := true } extra).arg
      ∧ (a.RunCmd h extra).arg
          = runOptions a h ++ [a.Image ++ ":latest"] ++ trailingCommand a extra := by
  refine ⟨(a0.UnmarshalYAML c.unmarshal).1, rfl, ?_⟩
  have hRM : (a0.UnmarshalYAML c.unmarshal).1.RM = true := by
    simp [Applet.UnmarshalYAML, Config.unmarshal, hrm]
  have hI : (a0.UnmarshalYAML c.unmarshal).1.Interactive = true := by
    simp [Applet.UnmarshalYAML, Config.unmarshal, hint]
  have hT : (a0.UnmarshalYAML c.unmarshal).1.TTY = true := by
    simp [Applet.UnmarshalYAML, Config.unmarshal, htty]
  have hTag : (a0.UnmarshalYAML c.unmarshal).1.Tag = "latest" := by
    simp [Applet.UnmarshalYAML, Config.unmarshal, htag]
  generalize (a0.UnmarshalYAML c.unmarshal).1 = a at hRM hI hT hTag
  refine ⟨hRM, hI, hT, hTag, ?_⟩
  · refine ⟨?_, ?_, ?_, ?_⟩
    · apply mem_RunCmd_arg_of_mem_runOptions
      simp [runOptions, optFlag, hRM]
    · apply mem_RunCmd_arg_of_mem_runOptions
      simp [runOptions, optFlag, hI]
    · apply mem_RunCmd_arg_of_mem_runOptions
      simp [runOptions, optFlag, hT]
    · rw [RunCmd_arg_eq, hTag, String.append_assoc]
      have hl : (":" : String) ++ "latest" = ":latest" := by decide
      rw [hl]
      simp

/-- Instance of C8: a configuration that names only the image. -/
theorem UnmarshalYAML_defaults_compile_witness :
    (({ image := some "alpine" } : Config).rm = none
      ∧ ({ image := some "alpine" } : Config).interactive = none
      ∧ ({ image := some "alpine" } : Config).tty = none
      ∧ ({ image := some "alpine" } : Config).image_tag = none)
    ∧ ∃ a : Applet,
        webApplet.UnmarshalYAML ({ image := some "alpine" } : Config).unmarshal = (a, none)
      ∧ a.RM = true ∧ a.Interactive = true ∧ a.TTY = true ∧ a.Tag = "latest"
      ∧ "--rm" ∈ (a.RunCmd sampleHost []).arg
      ∧ "--interactive" ∈ (a.RunCmd sampleHost []).arg
      ∧ "--tty" ∈ (a.RunCmd { sampleHost with IsTerminal := true } []).arg
      ∧ (a.RunCmd sampleHost []).arg
          = runOptions a sampleHost ++ [a.Image ++ ":latest"] ++ trailingCommand a [] :=
  ⟨by decide,
    UnmarshalYAML_defaults_compile webApplet { image := some "alpine" } sampleHost []
      rfl rfl rfl rfl⟩

/-- C9: `UnmarshalYAML` over a configuration succeeds and yields the record in
which every field present in the configuration has the configured value,
each absent one of RM, Interactive, TTY is true and an absent Tag is
`latest`, and every other absent field has its zero value; configured
`false` and the configured empty tag override the defaults. The previous
value of the receiver plays no part. -/
theorem UnmarshalYAML_absent_fields (a0 : Applet) (c : Config) :
    a0.UnmarshalYAML c.unmarshal =
        ({ Name := c.name.getD ""
           WorkDir := c.work_dir.getD ""
           Entrypoint := c.entrypoint.getD ""
           Restart := c.restart.getD ""
           Network := c.network.getD ""
           EnvFilter := c.env_filter.getD ""
           RM := c.rm.getD true
           TTY := c.tty.getD true
           Interactive := c.interactive.getD true
           Privileged := c.privileged.getD false
           Detach := c.detach.getD false
           Kill := c.kill.getD false
           AllEnvs := c.all_envs.getD false
           Env := c.environment.getD []
           Volumes := c.volumes.getD []
           Ports := c.ports.getD []
           EnvFile := c.env_file.getD []
           Dependencies := c.dependencies.getD []
           Links := c.links.getD []
           Image := c.image.getD ""
           Tag := c.image_tag.getD "latest"
           Command := c.command.getD [] }, none)
      ∧ (a0.UnmarshalYAML ({ c with rm := some false } : Config).unmarshal).1.RM = false
      ∧ (a0.UnmarshalYAML
          ({ c with interactive := some false } : Config).unmarshal).1.Interactive = false
      ∧ (a0.UnmarshalYAML ({ c with tty := some false } : Config).unmarshal).1.TTY = false
      ∧ (a0.UnmarshalYAML ({ c with image_tag := some "" } : Config).unmarshal).1.Tag = "" :=
  ⟨rfl, rfl, rfl, rfl, rfl⟩

/-- C10: for an applet with AllEnvs cleared, `RunCmd` forwards nothing from
the host environment: the invocation is the same for every EnvFilter and
every host environment list, the empty one included (the expansion being
the same), and between the boolean flags and the `-v` pairs the vector holds
only the `-e` pairs built from Env. -/
theorem RunCmd_AllEnvs_false (a : Applet) (h : Host) (extra : List String)
    (hA : a.AllEnvs = false) :
    (∀ (filter : String) (environ : List String),
        ({ a with EnvFilter := filter } : Applet).RunCmd { h with Environ := environ } extra
          = a.RunCmd h extra)
      ∧ a.RunCmd { h with Environ := [] } extra = a.RunCmd h extra
      ∧ hostForwarded a h = []
      ∧ (a.RunCmd h extra).arg =
          ["run"]
            ++ optValue "--name" a.Name a.Name
            ++ optValue "--workdir" a.WorkDir (h.ExpandEnv a.WorkDir)
            ++ optValue "--entrypoint" a.Entrypoint a.Entrypoint
            ++ optValue "--restart" a.Restart a.Restart
            ++ optValue "--network" a.Network a.Network
            ++ optFlag "--rm" a.RM
            ++ optFlag "--interactive" a.Interactive
            ++ optFlag "--privileged" a.Privileged
            ++ optFlag "--detach" a.Detach
            ++ optFlag "--tty" (a.TTY && h.IsTerminal)
            ++ optEach "-e" (a.Env.map h.ExpandEnv)
            ++ optEach "-v" (a.Volumes.map h.ExpandEnv)
            ++ optEach "-p" a.Ports
            ++ optEach "--env-file" a.EnvFile
            ++ optEach "--link" a.Links
            ++ [a.Image ++ ":" ++ a.Tag]
            ++ trailingCommand a extra := by
  have hopt : ∀ (filter : String) (environ : List String),
      runOptions { a with EnvFilter := filter } { h with Environ := environ }
        = runOptions a h := by
    intro filter environ
    simp [runOptions, hostForwarded, hA]
  have htr : ∀ filter : String, trailingCommand { a with EnvFilter := filter } extra
      = trailingCommand a extra := fun _ => rfl
  have hall : ∀ (filter : String) (environ : List String),
      ({ a with EnvFilter := filter } : Applet).RunCmd { h with Environ := environ } extra
        = a.RunCmd h extra := by
    intro filter environ
    rw [RunCmd_eq_Command, RunCmd_arg_eq, RunCmd_eq_Command a, RunCmd_arg_eq, hopt, htr]
  refine ⟨hall, ?_, ?_, ?_⟩
  · exact hall a.EnvFilter []
  · simp [hostForwarded, hA]
  · rw [RunCmd_arg_eq]
    simp [runOptions, hostForwarded, hA]

/-- Instance of C10: the web applet has AllEnvs cleared. -/
theorem RunCmd_AllEnvs_false_witness :
    webApplet.AllEnvs = false
      ∧ (∀ (filter : String) (environ : List String),
          ({ webApplet with EnvFilter := filter } : Applet).RunCmd
              { sampleHost with Environ := environ } ["sh"]
            = webApplet.RunCmd sampleHost ["sh"]) :=
  ⟨rfl, (RunCmd_AllEnvs_false webApplet sampleHost ["sh"] rfl).1⟩

theorem runOptions_split (a : Applet) (h : Host) :
    runOptions a h = headOptions a h ++ hostForwarded a h
      ++ optEach "-e" (a.Env.map h.ExpandEnv) ++ optEach "-v" (a.Volumes.map h.ExpandEnv)
      ++ verbatimOptions a := by
  simp only [runOptions, headOptions, verbatimOptions, List.append_assoc]

/-- C11 as stated fails: with the filter `HOME`, on a host whose matcher
searches the entry for the pattern as `regexp.MatchString` does, the entries
`HOME=/root` and `XHOME=/rootY` are forwarded although no host entry is, as
an entire string, a match of the pattern `HOME`. -/
theorem RunCmd_forwards_containing_entries :
    homeFilterApplet.AllEnvs = true
      ∧ literalHost.MatchString homeFilterApplet.EnvFilter "XHOME=/rootY" = (true, none)
      ∧ literalHost.Environ.filter (fun f => decide (f = homeFilterApplet.EnvFilter)) = []
      ∧ (homeFilterApplet.RunCmd literalHost []).arg
          = ["run", "-e", "HOME=/root", "-e", "XHOME=/rootY", "alpine:latest"] := by
  decide

/-- C11, amended: for an applet with AllEnvs set, on a host whose matcher (as
`regexp.MatchString` does) reports no match whenever it reports an error, the
segment of the `RunCmd` vector between the boolean flags and the Env pairs is
the pair `-e`, entry for exactly the host entries on which the matcher,
called with the EnvFilter and the entry, reports a match and no error, each
entry unmodified and in the host order; an entry with a match error is left
out and the rest of the vector is compiled all the same. What counts as a
match is the matcher's report, not a match of the entire entry: with the
matcher that searches the entry for a filter of literal characters, the
forwarded entries are those in which the filter occurs. -/
theorem RunCmd_forwards_matching_entries (a : Applet) (h : Host) (extra : List String)
    (hA : a.AllEnvs = true)
    (hstd : ∀ p s : String, (h.MatchString p s).2 ≠ none → (h.MatchString p s).1 = false) :
    (a.RunCmd h extra).arg
      = headOptions a h
        ++ (h.Environ.filter
              (fun f => decide (h.MatchString a.EnvFilter f = (true, none)))).flatMap
            (fun f => ["-e", f])
        ++ optEach "-e" (a.Env.map h.ExpandEnv)
        ++ optEach "-v" (a.Volumes.map h.ExpandEnv)
        ++ verbatimOptions a
        ++ [a.Image ++ ":" ++ a.Tag]
        ++ trailingCommand a extra
      ∧ (a.RunCmd { h with MatchString := fun p s => (occursIn p.data s.data, none) } extra).arg
        = headOptions a h
          ++ (h.Environ.filter (fun f => occursIn a.EnvFilter.data f.data)).flatMap
              (fun f => ["-e", f])
          ++ optEach "-e" (a.Env.map h.ExpandEnv)
          ++ optEach "-v" (a.Volumes.map h.ExpandEnv)
          ++ verbatimOptions a
          ++ [a.Image ++ ":" ++ a.Tag]
          ++ trailingCommand a extra := by
  have hf : (fun f => (h.MatchString a.EnvFilter f).1)
      = (fun f => decide (h.MatchString a.EnvFilter f = (true, none))) := by
    funext f
    have hc := hstd a.EnvFilter f
    rcases hm : h.MatchString a.EnvFilter f with ⟨m, e⟩
    rw [hm] at hc
    cases m <;> cases e <;> simp at hc ⊢
  constructor
  · rw [RunCmd_arg_eq, runOptions_split]
    simp only [hostForwarded, hA, if_true, hf, optEach, List.append_assoc, List.cons_append,
      List.nil_append]
  · rw [RunCmd_arg_eq, runOptions_split]
    simp only [hostForwarded, hA, if_true, optEach, List.append_assoc, List.cons_append,
      List.nil_append]
    rfl

/-- Instance of the amended C11: the filter `HOME` on the host whose matcher
searches the entry. -/
theorem RunCmd_forwards_matching_entries_witness :
    (homeFilterApplet.AllEnvs = true
      ∧ ∀ p s : String, (literalHost.MatchString p s).2 ≠ none
          → (literalHost.MatchString p s).1 = false)
    ∧ (homeFilterApplet.RunCmd literalHost ["sh"]).arg
      = headOptions homeFilterApplet literalHost
        ++ (literalHost.Environ.filter
              (fun f => decide (literalHost.MatchString homeFilterApplet.EnvFilter f
                = (true, none)))).flatMap
            (fun f => ["-e", f])
        ++ optEach "-e" (homeFilterApplet.Env.map literalHost.ExpandEnv)
        ++ optEach "-v" (homeFilterApplet.Volumes.map literalHost.ExpandEnv)
        ++ verbatimOptions homeFilterApplet
        ++ [homeFilterApplet.Image ++ ":" ++ homeFilterApplet.Tag]
        ++ trailingCommand homeFilterApplet ["sh"] :=
  ⟨⟨rfl, fun _ _ hne => absurd rfl hne⟩,
    (RunCmd_forwards_matching_entries homeFilterApplet literalHost ["sh"] rfl
      (fun _ _ hne => absurd rfl hne)).1⟩

/-- C12 as stated fails: with AllEnvs set and the filter `(`, on which the
matcher reports a compilation error for every entry, `RunCmd` still builds
its vector, with no host entry, exactly as with AllEnvs cleared; and with the
empty filter, which the matcher accepts on every string, every host entry is
forwarded. -/
theorem RunCmd_filter_error_discarded :
    brokenFilterApplet.AllEnvs = true
      ∧ strictHost.MatchString brokenFilterApplet.EnvFilter "HOME=/root"
          = (false, some "error parsing regexp: missing closing )")
      ∧ (brokenFilterApplet.RunCmd strictHost []).arg = ["run", "alpine:latest"]
      ∧ brokenFilterApplet.RunCmd strictHost []
          = ({ brokenFilterApplet with AllEnvs := false } : Applet).RunCmd strictHost []
      ∧ (({ brokenFilterApplet with EnvFilter := "" } : Applet).RunCmd strictHost []).arg
          = ["run", "-e", "HOME=/root", "-e", "TERM=xterm", "alpine:latest"] := by
  decide

/-- C12, amended: for an applet with AllEnvs set, when the matcher reports an
error and no match on every host entry (the filter does not compile), the
forwarding step does not fail: `RunCmd` discards the error, forwards no host
entry and builds the invocation of the same record with AllEnvs cleared. The
empty filter is no error case: when the matcher accepts every host entry on
the empty pattern, the record with an empty filter forwards every host entry. -/
theorem RunCmd_invalid_filter_swallowed (a : Applet) (h : Host) (extra : List String)
    (hA : a.AllEnvs = true)
    (hbad : ∀ f ∈ h.Environ, ∃ e : String, h.MatchString a.EnvFilter f = (false, some e))
    (hempty : ∀ f ∈ h.Environ, h.MatchString "" f = (true, none)) :
    a.RunCmd h extra = ({ a with AllEnvs := false } : Applet).RunCmd h extra
      ∧ (a.RunCmd h extra).arg
          = headOptions a h
            ++ optEach "-e" (a.Env.map h.ExpandEnv)
            ++ optEach "-v" (a.Volumes.map h.ExpandEnv)
            ++ verbatimOptions a
            ++ [a.Image ++ ":" ++ a.Tag]
            ++ trailingCommand a extra
      ∧ (({ a with EnvFilter := "" } : Applet).RunCmd h extra).arg
          = headOptions a h
            ++ optEach "-e" h.Environ
            ++ optEach "-e" (a.Env.map h.ExpandEnv)
            ++ optEach "-v" (a.Volumes.map h.ExpandEnv)
            ++ verbatimOptions a
            ++ [a.Image ++ ":" ++ a.Tag]
            ++ trailingCommand a extra := by
  have hnone : h.Environ.filter (fun f => (h.MatchString a.EnvFilter f).1) = [] := by
    rw [List.filter_eq_nil_iff]
    intro f hf
    obtain ⟨e, he⟩ := hbad f hf
    simp [he]
  have hall : h.Environ.filter (fun f => (h.MatchString "" f).1) = h.Environ := by
    rw [List.filter_eq_self]
    intro f hf
    simp [hempty f hf]
  have hfw : hostForwarded a h = [] := by
    simp [hostForwarded, hA, hnone, optEach]
  have hfw0 : hostForwarded { a with AllEnvs := false } h = [] := by
    simp [hostForwarded]
  have hfwe : hostForwarded { a with EnvFilter := "" } h = optEach "-e" h.Environ := by
    simp [hostForwarded, hA, hall]
  refine ⟨?_, ?_, ?_⟩
  · rw [RunCmd_eq_Command, RunCmd_arg_eq, RunCmd_eq_Command { a with AllEnvs := false },
      RunCmd_arg_eq, runOptions_split, runOptions_split, hfw, hfw0]
    rfl
  · rw [RunCmd_arg_eq, runOptions_split, hfw]
    simp
  · rw [RunCmd_arg_eq, runOptions_split, hfwe]
    simp [headOptions, verbatimOptions, trailingCommand]

/-- Instance of the amended C12: the filter `(` on the strict host. -/
theorem RunCmd_invalid_filter_swallowed_witness :
    (brokenFilterApplet.AllEnvs = true
      ∧ (∀ f ∈ strictHost.Environ,
          ∃ e : String, strictHost.MatchString brokenFilterApplet.EnvFilter f = (false, some e))
      ∧ (∀ f ∈ strictHost.Environ, strictHost.MatchString "" f = (true, none)))
    ∧ brokenFilterApplet.RunCmd strictHost []
        = ({ brokenFilterApplet with AllEnvs := false } : Applet).RunCmd strictHost [] :=
  ⟨⟨rfl, fun _ _ => ⟨_, rfl⟩, fun _ _ => rfl⟩,
    (RunCmd_invalid_filter_swallowed brokenFilterApplet strictHost [] rfl
      (fun _ _ => ⟨_, rfl⟩) (fun _ _ => rfl)).1⟩

/-- C13: `RunCmd` emits the expansion of WorkDir, of each Env entry and of
each Volumes entry, and emits each Ports, EnvFile and Links entry as it is
written: those three segments do not mention the host, a record with nothing
to expand compiles to the same invocation on any two hosts, and the Ports
entry `$HOME:80` yields the argument `$HOME:80` on every host. -/
theorem RunCmd_expansion_fields (a : Applet) (h : Host) (extra : List String) :
    (a.RunCmd h extra).arg
        = ["run"]
          ++ optValue "--name" a.Name a.Name
          ++ optValue "--workdir" a.WorkDir (h.ExpandEnv a.WorkDir)
          ++ optValue "--entrypoint" a.Entrypoint a.Entrypoint
          ++ optValue "--restart" a.Restart a.Restart
          ++ optValue "--network" a.Network a.Network
          ++ optFlag "--rm" a.RM
          ++ optFlag "--interactive" a.Interactive
          ++ optFlag "--privileged" a.Privileged
          ++ optFlag "--detach" a.Detach
          ++ optFlag "--tty" (a.TTY && h.IsTerminal)
          ++ hostForwarded a h
          ++ a.Env.flatMap (fun e => ["-e", h.ExpandEnv e])
          ++ a.Volumes.flatMap (fun v => ["-v", h.ExpandEnv v])
          ++ a.Ports.flatMap (fun p => ["-p", p])
          ++ a.EnvFile.flatMap (fun f => ["--env-file", f])
          ++ a.Links.flatMap (fun l => ["--link", l])
          ++ [a.Image ++ ":" ++ a.Tag]
          ++ trailingCommand a extra
      ∧ (∀ h1 h2 : Host,
          ({ a with WorkDir := "", Env := [], Volumes := [], AllEnvs := false, TTY := false }
              : Applet).RunCmd h1 extra
            = ({ a with WorkDir := "", Env := [], Volumes := [], AllEnvs := false,
                        TTY := false } : Applet).RunCmd h2 extra)
      ∧ (({ Ports := ["$HOME:80"], EnvFile := ["$HOME/.env"], Links := ["$DB:db"],
            Image := "nginx", Tag := "1.25" } : Applet).RunCmd h []).arg
          = ["run", "-p", "$HOME:80", "--env-file", "$HOME/.env", "--link", "$DB:db",
             "nginx:1.25"]
      ∧ (({ WorkDir := "$HOME", Env := ["$HOME"], Volumes := ["$HOME"], Ports := ["$HOME"],
            EnvFile := ["$HOME"], Links := ["$HOME"] } : Applet).RunCmd sampleHost []).arg
          = ["run", "--workdir", "/root", "-e", "/root", "-v", "/root", "-p", "$HOME",
             "--env-file", "$HOME", "--link", "$HOME", ":"] := by
  refine ⟨?_, ?_, ?_, ?_⟩
  · rw [RunCmd_arg_eq]
    simp only [runOptions, optEach, List.flatMap_map, List.append_assoc, List.cons_append,
      List.nil_append]
  · intro h1 h2
    rw [RunCmd_eq_Command, RunCmd_arg_eq, RunCmd_eq_Command _ h2, RunCmd_arg_eq]
    simp [runOptions, hostForwarded, optValue, optFlag, optEach]
  · rw [RunCmd_arg_eq]
    have hi : ("nginx" : String) ++ ":" ++ "1.25" = "nginx:1.25" := by decide
    simp [runOptions, hostForwarded, optValue, optFlag, optEach, trailingCommand, hi]
  · decide

/-- C14: `Exec` returns an error exactly when running the child built by
`RunCmd`, with the three standard streams attached, fails; the error text is
`error runnng applet `, the Name, `: ` and the cause; when the run succeeds
`Exec` returns no error. -/
theorem Exec_error_iff_run_fails (a : Applet) (h : Host)
    (run : Cmd → Stdio → Option String) (extra : List String) :
    (a.Exec h run extra ≠ none
        ↔ run (a.RunCmd h extra) { Stdin := true, Stdout := true, Stderr := true } ≠ none)
      ∧ a.Exec h run extra
          = (run (a.RunCmd h extra) { Stdin := true, Stdout := true, Stderr := true }).map
              (fun cause => "error runnng applet " ++ a.Name ++ ": " ++ cause)
      ∧ a.Exec h (fun _ _ => none) extra = none := by
  have key : a.Exec h run extra
      = (run (a.RunCmd h extra) { Stdin := true, Stdout := true, Stderr := true }).map
          (fun cause => "error runnng applet " ++ a.Name ++ ": " ++ cause) := by
    show (match run (a.RunCmd h extra) { Stdin := true, Stdout := true, Stderr := true } with
      | some err => some ("error runnng applet " ++ a.Name ++ ": " ++ err)
      | none => none) = _
    cases run (a.RunCmd h extra) { Stdin := true, Stdout := true, Stderr := true } <;> rfl
  refine ⟨?_, key, rfl⟩
  rw [key]
  cases run (a.RunCmd h extra) { Stdin := true, Stdout := true, Stderr := true } <;> simp

/-- C15 as stated fails: when the kill child fails, `PreExec` writes its
report on the standard output and nothing on the standard error. -/
theorem PreExec_report_on_stdout :
    failingRun webApplet.KillCmd { Stdout := true, Stderr := true } = some "exit status 1"
      ∧ (webApplet.PreExec failingRun).stderr = ""
      ∧ (webApplet.PreExec failingRun).stdout = "error killing web: exit status 1" := by
  decide

/-- C15, amended: `PreExec` has no error result, so a failure of the kill
child is never propagated; when the run fails it writes `error killing `, the
Name, `: ` and the cause on the standard output, and when the run succeeds it
writes nothing; it never writes on the standard error. -/
theorem PreExec_swallows_failure (a : Applet) (run : Cmd → Stdio → Option String) :
    (a.PreExec run).stderr = ""
      ∧ (a.PreExec run).stdout
          = ((run a.KillCmd { Stdout := true, Stderr := true }).map
              (fun cause => "error killing " ++ a.Name ++ ": " ++ cause)).getD ""
      ∧ a.PreExec (fun _ _ => none) = { stdout := "", stderr := "" } := by
  have key : a.PreExec run
      = (match run a.KillCmd { Stdout := true, Stderr := true } with
        | some err => { stdout := "error killing " ++ a.Name ++ ": " ++ err }
        | none => { }) := rfl
  rw [key]
  cases run a.KillCmd { Stdout := true, Stderr := true } <;> exact ⟨rfl, rfl, rfl⟩

/-- C16: the Kill flag and the Dependencies list are not read: replacing them
by any other values leaves the invocations built by `RunCmd` and by `KillCmd`
unchanged. -/
theorem Kill_Dependencies_not_read (a : Applet) (kill : Bool) (deps : List String)
    (h : Host) (extra : List String) :
    ({ a with Kill := kill, Dependencies := deps } : Applet).RunCmd h extra = a.RunCmd h extra
      ∧ ({ a with Kill := kill, Dependencies := deps } : Applet).KillCmd = a.KillCmd :=
  ⟨rfl, rfl⟩

theorem length_optEach (flag : String) (xs : List String) :
    (optEach flag xs).length = 2 * xs.length := by
  induction xs with
  | nil => rfl
  | cons x xs ih =>
    have hc : optEach flag (x :: xs) = [flag, x] ++ optEach flag xs := by simp [optEach]
    rw [hc, List.length_append, ih, List.length_cons, List.length_cons, List.length_cons,
      List.length_nil]
    omega

theorem length_optValue (flag field value : String) :
    (optValue flag field value).length = if field ≠ "" then 2 else 0 := by
  unfold optValue
  split <;> rfl

theorem length_optFlag (flag : String) (b : Bool) :
    (optFlag flag b).length = if b = true then 1 else 0 := by
  unfold optFlag
  split <;> rfl

/-- C17: for an applet with AllEnvs cleared, the length of the `RunCmd`
vector is given by the record, the terminal flag and the extra arguments
alone: it is the same for every host environment list, expansion and
matcher. The `--workdir` test reads the unexpanded WorkDir, and a WorkDir,
Env entry or Volumes entry contributes exactly one value after its flag,
whatever its expansion is (empty or with spaces included). -/
theorem RunCmd_length_host_independent (a : Applet) (h : Host) (extra : List String)
    (hA : a.AllEnvs = false) :
    (a.RunCmd h extra).arg.length
        = 1 + (if a.Name ≠ "" then 2 else 0) + (if a.WorkDir ≠ "" then 2 else 0)
          + (if a.Entrypoint ≠ "" then 2 else 0) + (if a.Restart ≠ "" then 2 else 0)
          + (if a.Network ≠ "" then 2 else 0) + (if a.RM = true then 1 else 0)
          + (if a.Interactive = true then 1 else 0) + (if a.Privileged = true then 1 else 0)
          + (if a.Detach = true then 1 else 0)
          + (if (a.TTY && h.IsTerminal) = true then 1 else 0)
          + 2 * a.Env.length + 2 * a.Volumes.length + 2 * a.Ports.length
          + 2 * a.EnvFile.length + 2 * a.Links.length + 1
          + (trailingCommand a extra).length
      ∧ (∀ (environ : List String) (expand : String → String)
            (matcher : String → String → Bool × Option String),
          (a.RunCmd { h with Environ := environ, ExpandEnv := expand, MatchString := matcher }
              extra).arg.length
            = (a.RunCmd h extra).arg.length)
      ∧ (∀ expand : String → String,
          (({ WorkDir := "$W", Env := ["$E"], Volumes := ["$V"] } : Applet).RunCmd
              { h with ExpandEnv := expand, IsTerminal := false } []).arg
            = ["run", "--workdir", expand "$W", "-e", expand "$E", "-v", expand "$V", ":"])
      ∧ (({ WorkDir := "$W", Env := ["$E"], Volumes := ["$V"] } : Applet).RunCmd
              { h with ExpandEnv := fun _ => "", IsTerminal := false } []).arg
            = ["run", "--workdir", "", "-e", "", "-v", "", ":"]
      ∧ (({ WorkDir := "$W", Env := ["$E"], Volumes := ["$V"] } : Applet).RunCmd
              { h with ExpandEnv := fun _ => "a b", IsTerminal := false } []).arg
            = ["run", "--workdir", "a b", "-e", "a b", "-v", "a b", ":"] := by
  have hlen : ∀ h' : Host, (a.RunCmd h' extra).arg.length
      = 1 + (if a.Name ≠ "" then 2 else 0) + (if a.WorkDir ≠ "" then 2 else 0)
          + (if a.Entrypoint ≠ "" then 2 else 0) + (if a.Restart ≠ "" then 2 else 0)
          + (if a.Network ≠ "" then 2 else 0) + (if a.RM = true then 1 else 0)
          + (if a.Interactive = true then 1 else 0) + (if a.Privileged = true then 1 else 0)
          + (if a.Detach = true then 1 else 0)
          + (if (a.TTY && h'.IsTerminal) = true then 1 else 0)
          + 2 * a.Env.length + 2 * a.Volumes.length + 2 * a.Ports.length
          + 2 * a.EnvFile.length + 2 * a.Links.length + 1
          + (trailingCommand a extra).length := by
    intro h'
    have hfw : hostForwarded a h' = [] := by simp [hostForwarded, hA]
    rw [RunCmd_arg_eq]
    simp only [runOptions, hfw, List.length_append, List.length_cons, List.length_nil,
      length_optEach, length_optValue, length_optFlag, List.length_map]
    omega
  have hfix : ∀ expand : String → String,
      (({ WorkDir := "$W", Env := ["$E"], Volumes := ["$V"] } : Applet).RunCmd
          { h with ExpandEnv := expand, IsTerminal := false } []).arg
        = ["run", "--workdir", expand "$W", "-e", expand "$E", "-v", expand "$V", ":"] := by
    intro expand
    rw [RunCmd_arg_eq]
    have hi : ("" : String) ++ ":" ++ "" = ":" := by decide
    simp [runOptions, hostForwarded, optValue, optFlag, optEach, trailingCommand, hi]
  refine ⟨hlen h, ?_, hfix, hfix _, hfix _⟩
  intro environ expand matcher
  rw [hlen, hlen h]

/-- Instance of C17: the job applet, whose Env entry is expanded. -/
theorem RunCmd_length_host_independent_witness :
    jobApplet.AllEnvs = false
      ∧ ∀ (environ : List String) (expand : String → String)
            (matcher : String → String → Bool × Option String),
          (jobApplet.RunCmd
              { sampleHost with Environ := environ, ExpandEnv := expand, MatchString := matcher }
              []).arg.length
            = (jobApplet.RunCmd sampleHost []).arg.length :=
  ⟨rfl, (RunCmd_length_host_independent jobApplet sampleHost [] rfl).2.1⟩

/-- C18: when the decoding callback reports an error, whatever it has written
into the record handed to it, `UnmarshalYAML` returns that same error and the
receiver keeps the value it had before the call. -/
theorem UnmarshalYAML_atomic_on_failure (a : Applet)
    (unmarshal : Applet → Applet × Option String) (dirty : Applet) (err : String)
    (hfail : unmarshal { RM := true, Interactive := true, TTY := true, Tag := "latest" }
      = (dirty, some err)) :
    a.UnmarshalYAML unmarshal = (a, some err) := by
  unfold Applet.UnmarshalYAML
  simp only [hfail]

/-- Instance of C18: a decoder that writes the name and then fails. -/
theorem UnmarshalYAML_atomic_on_failure_witness :
    failingUnmarshal { RM := true, Interactive := true, TTY := true, Tag := "latest" }
        = ({ Name := "half", RM := true, Interactive := true, TTY := true, Tag := "latest" },
            some "yaml: unmarshal errors")
      ∧ webApplet.UnmarshalYAML failingUnmarshal = (webApplet, some "yaml: unmarshal errors") :=
  ⟨rfl, UnmarshalYAML_atomic_on_failure webApplet failingUnmarshal
    { Name := "half", RM := true, Interactive := true, TTY := true, Tag := "latest" }
    "yaml: unmarshal errors" rfl⟩

end Dockerbox
